import Mathlib

/-!
Shallow embedding of the tradingview-to-oanda repository (src/oanda.py and
src/server.py) in Lean 4, together with theorems settling the frozen claims
about its specification.

Modelling conventions:
* Python floats are modelled as exact rationals (ℚ).  The claims under study
  are about the algebraic formulas (floor division, mid-rate averaging,
  percentage formulas), which are exact at the rational level.
* Python `int(x)` (truncation toward zero) is `pyInt`.
* Python truthiness of an optional float (`if stop_loss_price:`) is
  `pyTruthy`: `None` and `0.0` are falsy.
* Network and file-system effects are passed in as explicit data
  (`AccountState`, pricing lists, precision snapshots), so that "no network
  call is made" becomes "the result is independent of that data / the
  recorded network-call list is empty".
* `f"{x:.{d}f}"` formatting is `formatFixed`; the rounding of the underlying
  binary double is modelled as rational rounding to the nearest (the claims
  under study do not depend on tie behaviour).
-/

/-- Python `int(x)`: truncation toward zero. -/
def pyInt (q : ℚ) : ℤ := if 0 ≤ q then ⌊q⌋ else ⌈q⌉

/-- Python truthiness of an optional float: `None` and `0.0` are falsy. -/
def pyTruthy : Option ℚ → Bool
  | none => false
  | some x => decide (x ≠ 0)

/-- Python `pat in s` for strings: contiguous substring test. -/
def strContains (s pat : String) : Bool := decide (pat.toList <:+: s.toList)

/-- `instrument.split("_")[1]`, the quote currency of a `BASE_QUOTE` pair. -/
def quote_currency_of (instrument : String) : String :=
  ((instrument.toList.splitOn '_').getD 1 []).asString

/-- src/oanda.py:414 `pip_value = 0.0001 if "JPY" not in instrument else 0.01`.
The membership test is on the whole instrument string. -/
def determine_pip_value (instrument : String) : ℚ :=
  if strContains instrument "JPY" then 1/100 else 1/10000

/-- Errors raised by the embedded operations (Python exceptions /
HTTPException(400)). -/
inductive OandaError
  | invalidSizing          -- ValueError at oanda.py:450
  | instrumentNotFound     -- ValueError at oanda.py:519
  | positionAlreadyOpen    -- ValueError at oanda.py:182 / 283
  | invalidTicker          -- HTTPException(400) at server.py:98
  | unsupportedInstrument  -- HTTPException(400) at server.py:106
  | missingOpenParams      -- HTTPException(400) at server.py:121
  | missingKey             -- KeyError (dict lookup / missing payload key)
  | missingCurrency        -- ValueError at oanda.py:157
  deriving DecidableEq, Repr

/-- The account state extracted by `get_account_balance` (oanda.py:151-163). -/
structure AccountState where
  balance : ℚ
  leverage : ℤ
  currency : String
  deriving DecidableEq, Repr

/-- oanda.py:153 `leverage = int(1 / margin_rate)`. -/
def leverage_of (margin_rate : ℚ) : ℤ := pyInt (1 / margin_rate)

/-- src/oanda.py `get_account_balance`, applied to the fields of the broker's
account response: balance, marginRate, and the (possibly missing) currency.
A missing or empty currency raises (oanda.py:156-157). -/
def get_account_balance (balance margin_rate : ℚ) (currency : Option String) :
    Except OandaError AccountState :=
  let leverage := leverage_of margin_rate
  match currency with
  | none => .error .missingCurrency
  | some c =>
    if c = "" then .error .missingCurrency
    else .ok { balance := balance, leverage := leverage, currency := c }

/-- One entry of the broker's pricing response: best bid and best ask for an
instrument. -/
structure PriceEntry where
  instrument : String
  bid : ℚ
  ask : ℚ
  deriving DecidableEq, Repr

/-- src/oanda.py `get_accountcurrency_exchange_rate` (lines 466-522), applied
to the pricing response: constructs the pair ACCOUNTCURRENCY_QUOTECURRENCY,
finds its entry and returns the midpoint (bid+ask)/2; raises if absent. -/
def get_accountcurrency_exchange_rate (account_currency quote_currency : String)
    (prices : List PriceEntry) : Except OandaError ℚ :=
  let instrument := account_currency ++ "_" ++ quote_currency
  match prices.find? (fun p => p.instrument == instrument) with
  | some p => .ok ((p.bid + p.ask) / 2)
  | none => .error .instrumentNotFound

/-- oanda.py:401-407: convert the account balance into the quote currency of
the instrument when that differs from the account currency. -/
def converted_balance (acct : AccountState) (prices : List PriceEntry)
    (instrument : String) : Except OandaError ℚ :=
  let qc := quote_currency_of instrument
  if qc ≠ acct.currency then
    match get_accountcurrency_exchange_rate acct.currency qc prices with
    | .ok rate => .ok (acct.balance * rate)
    | .error e => .error e
  else .ok acct.balance

/-- The dictionary returned by `calculate_units` (oanda.py:452-461). -/
structure TradeDetails where
  units : ℤ
  margin : ℚ
  pip_value : ℚ
  trade_value : ℚ
  reward : Option ℚ
  risk : Option ℚ
  account_balance_converted : ℚ
  account_balance_original : ℚ
  deriving DecidableEq, Repr

/-- src/oanda.py `calculate_units` (lines 370-464).  The broker interactions
(`get_account_balance`, the pricing query) are supplied as data: `acct` is
the fetched account state and `prices` the pricing response consumed by
`get_accountcurrency_exchange_rate`. -/
def calculate_units (acct : AccountState) (prices : List PriceEntry)
    (instrument : String) (price : ℚ)
    (stop_loss_price take_profit_price : Option ℚ) (risk_percent : ℚ) :
    Except OandaError TradeDetails :=
  match converted_balance acct prices instrument with
  | .error e => .error e
  | .ok account_balance_converted =>
    let quote_currency := quote_currency_of instrument
    let risk_amount := account_balance_converted * (risk_percent / 100)
    let pip_value := determine_pip_value instrument
    let stop_loss_distance : Option ℚ :=
      if pyTruthy stop_loss_price then
        some (|price - stop_loss_price.getD 0| / pip_value)
      else none
    let take_profit_distance : Option ℚ :=
      if pyTruthy take_profit_price then
        some (|take_profit_price.getD 0 - price| / pip_value)
      else none
    let units : ℤ :=
      if pyTruthy stop_loss_distance then
        pyInt (risk_amount / (stop_loss_distance.getD 0 * pip_value))
      else 0
    let margin := ((units : ℚ) * price) / (acct.leverage : ℚ)
    let trade_value := (units : ℚ) * price
    let reward : Option ℚ :=
      if pyTruthy take_profit_price then
        some (take_profit_distance.getD 0 * pip_value * (units : ℚ) /
          account_balance_converted * 100)
      else none
    let risk : Option ℚ :=
      if pyTruthy stop_loss_price then
        some (stop_loss_distance.getD 0 * pip_value * (units : ℚ) /
          account_balance_converted * 100)
      else none
    let pip_value_quote_currency :=
      if quote_currency ≠ acct.currency then pip_value * (units : ℚ)
      else pip_value
    if units ≤ 0 then .error .invalidSizing
    else .ok {
      units := units
      margin := margin
      pip_value := pip_value_quote_currency
      trade_value := trade_value
      reward := reward
      risk := risk
      account_balance_converted := account_balance_converted
      account_balance_original := acct.balance }

/-- One entry of the broker's openPositions response (the fields the code
reads). -/
structure Position where
  instrument : String
  deriving DecidableEq, Repr

/-- src/oanda.py `check_any_position_open` (lines 588-611): the positions
list of the broker response is truthy iff it is non-empty; a response without
the key behaves like an empty list (`positions_data.get("positions")`). -/
def check_any_position_open (positions : List Position) : Bool :=
  !positions.isEmpty

/-- src/oanda.py `check_position_open` (lines 561-586): true iff some open
position matches the given instrument. -/
def check_position_open (positions : List Position) (instrument : String) : Bool :=
  positions.any (fun p => p.instrument == instrument)

/-- oanda.py:9 `DEBUG_MODE = True`. -/
def DEBUG_MODE : Bool := true

/-- Number of `m`'s decimal digits at positions `d-1, …, 0`, with leading
zeros, used for the fixed-point fractional part. -/
def fracDigits (m d : ℕ) : List Char :=
  (List.range d).reverse.map (fun i => Nat.digitChar ((m / 10 ^ i) % 10))

/-- Python `f"{q:.{d}f}"`: fixed-point formatting of `q` with exactly `d`
decimal places (rounding to nearest; tie behaviour of binary doubles is not
modelled, no claim depends on it). -/
def formatFixed (q : ℚ) (d : ℕ) : String :=
  let n : ℤ := round (q * (10 : ℚ) ^ d)
  let sign := if n < 0 then "-" else ""
  let whole := n.natAbs / 10 ^ d
  let frac := n.natAbs % 10 ^ d
  if d = 0 then sign ++ Nat.repr whole
  else sign ++ Nat.repr whole ++ "." ++ String.mk (fracDigits frac d)

/-- Number of characters after the last `'.'` of a string (0 when there is
no `'.'`). -/
def decimalPlaces (s : String) : ℕ :=
  if '.' ∈ s.toList then (s.toList.reverse.takeWhile (fun c => c ≠ '.')).length
  else 0

/-- Python's dict lookup `price_precisions[instrument]` over the snapshot,
modelled as an association list; raises KeyError when absent. -/
def lookupPrecision (precisions : List (String × ℕ)) (instrument : String) :
    Except OandaError ℕ :=
  match precisions.find? (fun kv => kv.fst == instrument) with
  | some kv => .ok kv.snd
  | none => .error .missingKey

/-- The market-order payload constructed at oanda.py:200-213 / 301-314. -/
structure MarketOrderPayload where
  order_type : String
  positionFill : String
  instrument : String
  units : String
  stopLossOnFill : String
  takeProfitOnFill : String
  deriving DecidableEq, Repr

/-- Result of an order operation: the debug sentinel
`{"status": "debug", "message": "Order logged to server.log"}` or the
response to a network submission of the given payload. -/
inductive CallResult (π : Type)
  | debugSentinel
  | sent (payload : π)
  deriving DecidableEq, Repr

/-- An order operation's observable outcome: its returned result, the
payloads written to the audit log, and the payloads sent over the network. -/
structure CallOutcome (π : Type) where
  result : CallResult π
  logged : List π
  networkSent : List π
  deriving DecidableEq, Repr

/-- src/oanda.py `open_long_position` (lines 168-234).  `debug` mirrors the
`DEBUG_MODE` global; `positions` is the broker's openPositions response,
`precisions` the resolved precision snapshot. -/
def open_long_position (debug : Bool) (positions : List Position)
    (acct : AccountState) (prices : List PriceEntry)
    (precisions : List (String × ℕ)) (instrument : String)
    (price stop_loss_price take_profit_price : ℚ) (risk_percent : ℚ) :
    Except OandaError (CallOutcome MarketOrderPayload) :=
  if check_any_position_open positions then .error .positionAlreadyOpen
  else
    match calculate_units acct prices instrument price (some stop_loss_price)
      (some take_profit_price) risk_percent with
    | .error e => .error e
    | .ok trade_details =>
      let units := trade_details.units
      match lookupPrecision precisions instrument with
      | .error e => .error e
      | .ok price_decimals =>
        let payload : MarketOrderPayload := {
          order_type := "MARKET"
          positionFill := "DEFAULT"
          instrument := instrument
          units := toString units
          stopLossOnFill := formatFixed stop_loss_price price_decimals
          takeProfitOnFill := formatFixed take_profit_price price_decimals }
        if debug then
          .ok { result := .debugSentinel, logged := [payload], networkSent := [] }
        else
          .ok { result := .sent payload, logged := [payload],
                networkSent := [payload] }

/-- src/oanda.py `open_short_position` (lines 269-335): identical to the long
case except `units = -trade_details["units"]` (line 294). -/
def open_short_position (debug : Bool) (positions : List Position)
    (acct : AccountState) (prices : List PriceEntry)
    (precisions : List (String × ℕ)) (instrument : String)
    (price stop_loss_price take_profit_price : ℚ) (risk_percent : ℚ) :
    Except OandaError (CallOutcome MarketOrderPayload) :=
  if check_any_position_open positions then .error .positionAlreadyOpen
  else
    match calculate_units acct prices instrument price (some stop_loss_price)
      (some take_profit_price) risk_percent with
    | .error e => .error e
    | .ok trade_details =>
      let units := -trade_details.units
      match lookupPrecision precisions instrument with
      | .error e => .error e
      | .ok price_decimals =>
        let payload : MarketOrderPayload := {
          order_type := "MARKET"
          positionFill := "DEFAULT"
          instrument := instrument
          units := toString units
          stopLossOnFill := formatFixed stop_loss_price price_decimals
          takeProfitOnFill := formatFixed take_profit_price price_decimals }
        if debug then
          .ok { result := .debugSentinel, logged := [payload], networkSent := [] }
        else
          .ok { result := .sent payload, logged := [payload],
                networkSent := [payload] }

/-- src/oanda.py `close_long_position` (lines 236-267): payload
`{"longUnits": "ALL"}`; the payload is logged only on the debug path. -/
def close_long_position (debug : Bool) : CallOutcome (String × String) :=
  let payload := ("longUnits", "ALL")
  if debug then { result := .debugSentinel, logged := [payload], networkSent := [] }
  else { result := .sent payload, logged := [], networkSent := [payload] }

/-- src/oanda.py `close_short_position` (lines 337-368): payload
`{"shortUnits": "ALL"}`. -/
def close_short_position (debug : Bool) : CallOutcome (String × String) :=
  let payload := ("shortUnits", "ALL")
  if debug then { result := .debugSentinel, logged := [payload], networkSent := [] }
  else { result := .sent payload, logged := [], networkSent := [payload] }

/-- The environment of the precision cache: whether the snapshot file
`price_precisions.json` exists, its contents, and what a broker refetch
(`get_instruments`) would return. -/
structure PrecisionCacheWorld where
  fileExists : Bool
  fileContents : List (String × ℕ)
  brokerInstruments : List (String × ℕ)
  deriving Repr

/-- Result of resolving the precision mapping: the mapping together with
whether the broker was queried to produce it. -/
structure PrecisionsFetch where
  precisions : List (String × ℕ)
  fetchedFromBroker : Bool
  deriving Repr

/-- src/oanda.py `get_price_precisions` (lines 90-99): load the snapshot if
the file exists, otherwise fetch the instrument list from the broker (and
persist it). -/
def get_price_precisions (w : PrecisionCacheWorld) : PrecisionsFetch :=
  if w.fileExists then { precisions := w.fileContents, fetchedFromBroker := false }
  else { precisions := w.brokerInstruments, fetchedFromBroker := true }

/-- src/oanda.py `get_price_precision` (lines 85-88):
`price_precisions[instrument]` — a plain dict lookup on the resolved mapping,
KeyError when the instrument is absent.  The Bool records whether the broker
was queried. -/
def get_price_precision (w : PrecisionCacheWorld) (instrument : String) :
    Except OandaError (ℕ × Bool) :=
  let r := get_price_precisions w
  match r.precisions.find? (fun kv => kv.fst == instrument) with
  | some kv => .ok (kv.snd, r.fetchedFromBroker)
  | none => .error .missingKey

namespace Server

/-- server.py:67-83. -/
def SUPPORTED_PAIRS : List String :=
  ["EUR_USD", "GBP_USD", "USD_JPY", "JPY_USD", "AUD_USD", "USD_CAD",
   "NZD_USD", "USD_CHF", "EUR_GBP", "EUR_JPY", "GBP_JPY", "XAU_USD",
   "XAG_USD", "BTC_USD", "ETH_USD"]

/-- src/server.py `translate` (lines 91-108): reject a missing/empty or
non-6-character ticker, split at position 3, then validate against
`SUPPORTED_PAIRS`. -/
def translate (ticker : Option String) : Except OandaError String :=
  match ticker with
  | none => .error .invalidTicker
  | some t =>
    if t = "" ∨ t.length ≠ 6 then .error .invalidTicker
    else
      let instrument := (t.toList.take 3).asString ++ "_" ++ (t.toList.drop 3).asString
      if instrument ∈ SUPPORTED_PAIRS then .ok instrument
      else .error .unsupportedInstrument

/-- The inbound webhook payload fields consumed by
`post_data_to_oanda_parameters` (absent dict keys are `none`). -/
structure PostData where
  ticker : Option String
  action : String
  price : Option ℚ
  stop_loss_price : Option ℚ
  take_profit_price : Option ℚ
  deriving Repr

/-- src/server.py `post_data_to_oanda_parameters` (lines 111-145): translate
the ticker, validate the required open-action fields, skip sizing for close
actions, otherwise size via `calculate_units` (risk_percent=1.0).  `acct` and
`prices` stand for the broker interactions performed inside
`calculate_units`. -/
def post_data_to_oanda_parameters (acct : AccountState)
    (prices : List PriceEntry) (pd : PostData) :
    Except OandaError (String × Option TradeDetails) :=
  match translate pd.ticker with
  | .error e => .error e
  | .ok instrument =>
    if (pd.action = "open_long" ∨ pd.action = "open_short") ∧
        (pd.stop_loss_price = none ∨ pd.take_profit_price = none ∨
         pd.price = none) then
      .error .missingOpenParams
    else if pd.action = "close_long" ∨ pd.action = "close_short" then
      .ok (instrument, none)
    else
      match pd.price, pd.stop_loss_price, pd.take_profit_price with
      | some p, some sl, some tp =>
        match calculate_units acct prices instrument p (some sl) (some tp) 1 with
        | .ok td => .ok (instrument, some td)
        | .error e => .error e
      | _, _, _ => .error .missingKey

end Server

/-! ### Concrete inputs used by witnesses and counterexamples -/

/-- A USD account, used for concrete runs without currency conversion. -/
def acctA : AccountState := { balance := 1000, leverage := 30, currency := "USD" }

/-- Result of `calculate_units acctA [] "EUR_USD" 1.1 1.0 1.2 1`. -/
def tdA : TradeDetails :=
  { units := 100, margin := 11/3, pip_value := 1/10000, trade_value := 110,
    reward := some 1, risk := some 1, account_balance_converted := 1000,
    account_balance_original := 1000 }

/-- A precision snapshot holding EUR_USD with 5 decimal places. -/
def precsA : List (String × ℕ) := [("EUR_USD", 5)]

/-- The debug-mode outcome of the concrete short-open run. -/
def openShortOutA : CallOutcome MarketOrderPayload :=
  { result := .debugSentinel,
    logged := [{ order_type := "MARKET", positionFill := "DEFAULT",
                 instrument := "EUR_USD", units := toString (-(100:ℤ)),
                 stopLossOnFill := formatFixed 1 5,
                 takeProfitOnFill := formatFixed (6/5) 5 }],
    networkSent := [] }

/-- The webhook payload of the C9 scenario: EURUSD open_long without a
stop_loss_price. -/
def pdMissingStop : Server.PostData :=
  { ticker := some "EURUSD", action := "open_long", price := some (11/10),
    stop_loss_price := none, take_profit_price := some (6/5) }

/-- The snapshot world of the C10 witness: the file exists and holds only
EUR_USD. -/
def cacheWorldA : PrecisionCacheWorld :=
  { fileExists := true, fileContents := [("EUR_USD", 5)],
    brokerInstruments := [("EUR_USD", 5), ("USD_JPY", 3)] }

/-- A GBP account, used for concrete runs with currency conversion. -/
def acctB : AccountState := { balance := 1000, leverage := 30, currency := "GBP" }

/-- Pricing entry for GBP_USD with bid 2 and ask 3 (mid rate 5/2). -/
def entryB : PriceEntry := { instrument := "GBP_USD", bid := 2, ask := 3 }

/-- Pricing response holding only `entryB`. -/
def pricesB : List PriceEntry := [entryB]

/-- Result of `calculate_units acctB pricesB "EUR_USD" 1.1 1.0 1.2 1`. -/
def tdB : TradeDetails :=
  { units := 250, margin := 55/6, pip_value := 1/40, trade_value := 275,
    reward := some 1, risk := some 1, account_balance_converted := 2500,
    account_balance_original := 1000 }

/-! ### Basic lemmas about the helpers -/

theorem pyInt_of_nonneg {q : ℚ} (h : 0 ≤ q) : pyInt q = ⌊q⌋ := by
  simp [pyInt, h]

theorem one_le_pyInt_iff {q : ℚ} : 1 ≤ pyInt q ↔ 1 ≤ q := by
  unfold pyInt
  split
  · rw [Int.le_floor]; norm_num
  · constructor
    · intro h
      have h2 : (0 : ℤ) < ⌈q⌉ := lt_of_lt_of_le (by norm_num) h
      rw [Int.lt_ceil] at h2
      push_cast at h2
      linarith
    · intro h; linarith

theorem pyInt_le_zero_iff {q : ℚ} : pyInt q ≤ 0 ↔ q < 1 := by
  rw [← not_iff_not, not_le, not_lt]
  constructor
  · intro h; exact one_le_pyInt_iff.mp h
  · intro h; exact one_le_pyInt_iff.mpr h

theorem determine_pip_value_pos (instrument : String) :
    0 < determine_pip_value instrument := by
  unfold determine_pip_value
  split <;> norm_num

theorem determine_pip_value_ne_zero (instrument : String) :
    determine_pip_value instrument ≠ 0 :=
  ne_of_gt (determine_pip_value_pos instrument)

theorem pyTruthy_some_iff {x : ℚ} : pyTruthy (some x) = true ↔ x ≠ 0 := by
  simp [pyTruthy]

/-- Errors coming out of the mid-rate query can only be `instrumentNotFound`. -/
theorem get_accountcurrency_exchange_rate_error {a q : String}
    {prices : List PriceEntry} {e : OandaError}
    (h : get_accountcurrency_exchange_rate a q prices = .error e) :
    e = .instrumentNotFound := by
  simp only [get_accountcurrency_exchange_rate] at h
  split at h
  · simp at h
  · cases h; rfl

/-- Errors coming out of `converted_balance` can only be `instrumentNotFound`. -/
theorem converted_balance_error {acct : AccountState} {prices : List PriceEntry}
    {instrument : String} {e : OandaError}
    (h : converted_balance acct prices instrument = .error e) :
    e = .instrumentNotFound := by
  simp only [converted_balance] at h
  split at h
  · split at h
    · simp at h
    · rename_i e2 heq
      cases h
      exact get_accountcurrency_exchange_rate_error heq
  · simp at h

/-- Unfolding of `calculate_units` on a truthy stop-loss price with a
non-zero stop distance, in terms of the resolved converted balance. -/
theorem calculate_units_eq_of_stop {acct : AccountState} {prices : List PriceEntry}
    {instrument : String} {price s cb : ℚ} (tak : Option ℚ) (rp : ℚ)
    (hconv : converted_balance acct prices instrument = .ok cb)
    (hs : s ≠ 0) (hd : price ≠ s) :
    calculate_units acct prices instrument price (some s) tak rp =
      (let pip := determine_pip_value instrument
       let dist := |price - s| / pip
       let u := pyInt (cb * (rp / 100) / (dist * pip))
       if u ≤ 0 then .error .invalidSizing
       else .ok {
         units := u
         margin := (u : ℚ) * price / (acct.leverage : ℚ)
         pip_value := if quote_currency_of instrument ≠ acct.currency
           then pip * (u : ℚ) else pip
         trade_value := (u : ℚ) * price
         reward := if pyTruthy tak then
             some (|tak.getD 0 - price| / pip * pip * (u : ℚ) / cb * 100)
           else none
         risk := some (dist * pip * (u : ℚ) / cb * 100)
         account_balance_converted := cb
         account_balance_original := acct.balance }) := by
  have hpt : pyTruthy (some s) = true := pyTruthy_some_iff.mpr hs
  have hdne : |price - s| / determine_pip_value instrument ≠ 0 := by
    apply div_ne_zero _ (determine_pip_value_ne_zero instrument)
    rw [abs_ne_zero, sub_ne_zero]
    exact hd
  have hptd :
      pyTruthy (some (|price - s| / determine_pip_value instrument)) = true :=
    pyTruthy_some_iff.mpr hdne
  unfold calculate_units
  rw [hconv]
  simp only [hpt, hptd, if_true, Option.getD_some]
  by_cases htak : pyTruthy tak = true <;> simp [htak]

/-- When the stop-loss price is falsy (`None` or `0.0`), the computed units
are 0 and `calculate_units` raises. -/
theorem calculate_units_of_stop_falsy {acct : AccountState}
    {prices : List PriceEntry} {instrument : String} {price cb : ℚ}
    {stop tak : Option ℚ} {rp : ℚ}
    (hconv : converted_balance acct prices instrument = .ok cb)
    (hst : pyTruthy stop = false) :
    calculate_units acct prices instrument price stop tak rp =
      .error .invalidSizing := by
  unfold calculate_units
  rw [hconv]
  simp only [hst, Bool.false_eq_true, if_false]
  simp [pyTruthy]

/-- Auxiliary form of the zero-stop-distance behaviour, shared by several
proofs: a zero distance always raises. -/
theorem calculate_units_zero_dist_aux {acct : AccountState}
    {prices : List PriceEntry} {instrument : String} {price s cb : ℚ}
    (tak : Option ℚ) (rp : ℚ)
    (hconv : converted_balance acct prices instrument = .ok cb)
    (hd : |price - s| = 0) :
    calculate_units acct prices instrument price (some s) tak rp =
      .error .invalidSizing := by
  by_cases hs : s = 0
  · exact calculate_units_of_stop_falsy hconv (by simp [pyTruthy, hs])
  · have hpt : pyTruthy (some s) = true := pyTruthy_some_iff.mpr hs
    have hdz : |price - s| / determine_pip_value instrument = 0 := by
      rw [hd, zero_div]
    unfold calculate_units
    rw [hconv]
    simp only [hpt, if_true, Option.getD_some, hdz]
    simp [pyTruthy]

/-- C3: whenever the stop-loss distance |price - stopLossPrice| is zero,
`calculate_units` raises InvalidSizing (the division by the zero distance is
never evaluated and no unit count is returned, so no NaN or infinite unit
count can escape). -/
theorem calculate_units_zero_stop_distance_raises {acct : AccountState}
    {prices : List PriceEntry} {instrument : String} {price s cb : ℚ}
    (tak : Option ℚ) (rp : ℚ)
    (hconv : converted_balance acct prices instrument = .ok cb)
    (hd : |price - s| = 0) :
    calculate_units acct prices instrument price (some s) tak rp =
      .error .invalidSizing :=
  calculate_units_zero_dist_aux tak rp hconv hd

/-- C1: with a positive stop-loss distance, the unit count returned by
`calculate_units` is the floor of riskAmount / (stopLossDistancePips *
pipSize); if that floor is ≤ 0 the function raises InvalidSizing instead of
returning; on success the units are ≥ 1; and for short positions the
negation of the units is applied by the caller `open_short_position`, never
inside `calculate_units`. -/
theorem calculate_units_floor_division_and_caller_negation
    (acct : AccountState) (prices : List PriceEntry)
    (precisions : List (String × ℕ)) (instrument : String)
    (price s tp rp cb : ℚ)
    (hconv : converted_balance acct prices instrument = .ok cb)
    (hpos : 0 < |price - s|) :
    (⌊cb * (rp / 100) / (|price - s| / determine_pip_value instrument *
        determine_pip_value instrument)⌋ ≤ 0 →
      calculate_units acct prices instrument price (some s) (some tp) rp =
        .error .invalidSizing) ∧
    (∀ td, calculate_units acct prices instrument price (some s) (some tp) rp =
        .ok td →
      td.units = ⌊cb * (rp / 100) / (|price - s| / determine_pip_value instrument *
        determine_pip_value instrument)⌋ ∧ 1 ≤ td.units) ∧
    (∀ td o, calculate_units acct prices instrument price (some s) (some tp) rp =
        .ok td →
      open_short_position DEBUG_MODE [] acct prices precisions instrument
        price s tp rp = .ok o →
      o.logged.map (fun pl => pl.units) = [toString (-td.units)]) := by
  have hps : price ≠ s := by
    intro h
    rw [h, sub_self, abs_zero] at hpos
    exact lt_irrefl 0 hpos
  refine ⟨?_, ?_, ?_⟩
  · intro hfle
    by_cases hs : s = 0
    · exact calculate_units_of_stop_falsy hconv (by simp [pyTruthy, hs])
    · rw [calculate_units_eq_of_stop (some tp) rp hconv hs hps]
      have hlt : cb * (rp / 100) / (|price - s| / determine_pip_value instrument *
          determine_pip_value instrument) < 1 := by
        have hfl1 : ⌊cb * (rp / 100) / (|price - s| / determine_pip_value instrument *
            determine_pip_value instrument)⌋ < 1 := by omega
        have := Int.floor_lt.mp hfl1
        simpa using this
      simp only [pyInt_le_zero_iff.mpr hlt, if_true]
  · intro td htd
    by_cases hs : s = 0
    · rw [calculate_units_of_stop_falsy hconv (by simp [pyTruthy, hs])] at htd
      cases htd
    · rw [calculate_units_eq_of_stop (some tp) rp hconv hs hps] at htd
      simp only at htd
      split at htd
      · cases htd
      · rename_i hnle
        cases htd
        have h1 : 1 ≤ pyInt (cb * (rp / 100) /
            (|price - s| / determine_pip_value instrument *
             determine_pip_value instrument)) := by omega
        have hx : (1 : ℚ) ≤ cb * (rp / 100) /
            (|price - s| / determine_pip_value instrument *
             determine_pip_value instrument) := one_le_pyInt_iff.mp h1
        constructor
        · simp only [TradeDetails.units]
          rw [pyInt_of_nonneg (le_trans (by norm_num) hx)]
        · exact h1
  · intro td o htd ho
    unfold open_short_position at ho
    rw [htd] at ho
    simp only [check_any_position_open, List.isEmpty_nil, Bool.not_true,
      Bool.false_eq_true, if_false] at ho
    split at ho
    · cases ho
    · simp only [DEBUG_MODE, if_true] at ho
      cases ho
      rfl


theorem quote_EUR_USD : quote_currency_of "EUR_USD" = "USD" := by decide

theorem pip_EUR_USD : determine_pip_value "EUR_USD" = 1/10000 := by
  have h : strContains "EUR_USD" "JPY" = false := by decide
  simp [determine_pip_value, h]

theorem conv_run_A : converted_balance acctA [] "EUR_USD" = .ok 1000 := by
  simp [converted_balance, quote_EUR_USD, acctA]

theorem calc_run_A :
    calculate_units acctA [] "EUR_USD" (11/10) (some 1) (some (6/5)) 1 = .ok tdA := by
  rw [calculate_units_eq_of_stop (some (6/5)) 1 conv_run_A (by norm_num) (by norm_num)]
  have habs : |(11:ℚ)/10 - 1| = 1/10 := by rw [abs_of_pos] <;> norm_num
  have habs2 : |(6:ℚ)/5 - 11/10| = 1/10 := by rw [abs_of_pos] <;> norm_num
  have hu : pyInt ((1000:ℚ) * (1 / 100) /
      (|(11:ℚ)/10 - 1| / determine_pip_value "EUR_USD" *
        determine_pip_value "EUR_USD")) = 100 := by
    rw [habs, pip_EUR_USD]
    rw [show (1000:ℚ) * (1 / 100) / (1/10 / (1/10000) * (1/10000)) = 100 by norm_num]
    rw [pyInt_of_nonneg (by norm_num), Int.floor_eq_iff]
    constructor <;> norm_num
  simp only [pip_EUR_USD, quote_EUR_USD, acctA, hu, habs, habs2]
  have hpt : pyTruthy (some ((6:ℚ)/5)) = true := by simp [pyTruthy]
  have hu100 : pyInt (100 : ℚ) = 100 := by
    rw [pyInt_of_nonneg (by norm_num), Int.floor_eq_iff]
    constructor <;> norm_num
  simp only [hpt, if_true]
  norm_num [tdA, hu100, abs_of_pos]


theorem open_short_run_A :
    open_short_position DEBUG_MODE [] acctA [] precsA "EUR_USD" (11/10) 1 (6/5) 1 =
      .ok openShortOutA := by
  unfold open_short_position
  rw [calc_run_A]
  have hprec : lookupPrecision precsA "EUR_USD" = .ok 5 := rfl
  simp [check_any_position_open, hprec, DEBUG_MODE, tdA, openShortOutA]

/-- Witness for C1 at a concrete input. -/
theorem calculate_units_floor_division_witness :
    converted_balance acctA [] "EUR_USD" = .ok 1000 ∧
    (0 : ℚ) < |(11:ℚ)/10 - 1| ∧
    (tdA.units = ⌊(1000:ℚ) * (1 / 100) /
        (|(11:ℚ)/10 - 1| / determine_pip_value "EUR_USD" *
         determine_pip_value "EUR_USD")⌋ ∧ 1 ≤ tdA.units) ∧
    openShortOutA.logged.map (fun pl => pl.units) = [toString (-tdA.units)] := by
  have hpos : (0 : ℚ) < |(11:ℚ)/10 - 1| := abs_pos.mpr (by norm_num)
  have h := calculate_units_floor_division_and_caller_negation acctA [] precsA
    "EUR_USD" (11/10) 1 (6/5) 1 1000 conv_run_A hpos
  exact ⟨conv_run_A, hpos, h.2.1 tdA calc_run_A,
    h.2.2 tdA openShortOutA calc_run_A open_short_run_A⟩

/-- Witness for C3 at a concrete input. -/
theorem calculate_units_zero_stop_distance_witness :
    converted_balance acctA [] "EUR_USD" = .ok 1000 ∧ |(1:ℚ) - 1| = 0 ∧
    calculate_units acctA [] "EUR_USD" 1 (some 1) none 1 =
      .error .invalidSizing :=
  ⟨conv_run_A, by norm_num,
    calculate_units_zero_stop_distance_raises none 1 conv_run_A (by norm_num)⟩

/-- `calculate_units` can only fail with `instrumentNotFound` or
`invalidSizing`. -/
theorem calculate_units_error_cases {acct : AccountState}
    {prices : List PriceEntry} {instrument : String} {price : ℚ}
    {stop tak : Option ℚ} {rp : ℚ} {e : OandaError}
    (h : calculate_units acct prices instrument price stop tak rp = .error e) :
    e = .instrumentNotFound ∨ e = .invalidSizing := by
  cases hc : converted_balance acct prices instrument with
  | error e2 =>
    have h2 : calculate_units acct prices instrument price stop tak rp =
        .error e2 := by
      unfold calculate_units
      rw [hc]
    rw [h2] at h
    cases h
    exact Or.inl (converted_balance_error hc)
  | ok cb =>
    cases stop with
    | none =>
      rw [calculate_units_of_stop_falsy hc (by simp [pyTruthy])] at h
      cases h
      exact Or.inr rfl
    | some s =>
      by_cases hs : s = 0
      · rw [calculate_units_of_stop_falsy hc (by simp [pyTruthy, hs])] at h
        cases h
        exact Or.inr rfl
      · by_cases hps : price = s
        · rw [calculate_units_zero_dist_aux tak rp hc
            (by rw [hps, sub_self, abs_zero])] at h
          cases h
          exact Or.inr rfl
        · rw [calculate_units_eq_of_stop tak rp hc hs hps] at h
          simp only at h
          split at h
          · cases h
            exact Or.inr rfl
          · cases h

/-- `lookupPrecision` can only fail with a KeyError. -/
theorem lookupPrecision_error {precisions : List (String × ℕ)}
    {instrument : String} {e : OandaError}
    (h : lookupPrecision precisions instrument = .error e) : e = .missingKey := by
  unfold lookupPrecision at h
  split at h
  · cases h
  · cases h; rfl

/-- C2: any entry in the broker's open-positions response — regardless of
instrument — makes `open_long_position`/`open_short_position` fail with
PositionAlreadyOpen before sizing or submission; they can fail this way only
when the positions list is non-empty. -/
theorem open_rejected_when_any_position_open
    (debug : Bool) (positions : List Position) (acct : AccountState)
    (prices : List PriceEntry) (precisions : List (String × ℕ))
    (instrument : String) (price s tp rp : ℚ) :
    (positions ≠ [] →
      open_long_position debug positions acct prices precisions instrument
        price s tp rp = .error .positionAlreadyOpen ∧
      open_short_position debug positions acct prices precisions instrument
        price s tp rp = .error .positionAlreadyOpen) ∧
    (check_any_position_open positions = true ↔ positions ≠ []) ∧
    (positions = [] →
      open_long_position debug positions acct prices precisions instrument
        price s tp rp ≠ .error .positionAlreadyOpen ∧
      open_short_position debug positions acct prices precisions instrument
        price s tp rp ≠ .error .positionAlreadyOpen) := by
  have hchk : check_any_position_open positions = true ↔ positions ≠ [] := by
    simp [check_any_position_open, List.isEmpty_iff]
  refine ⟨?_, hchk, ?_⟩
  · intro hne
    constructor
    · unfold open_long_position
      rw [if_pos (hchk.mpr hne)]
    · unfold open_short_position
      rw [if_pos (hchk.mpr hne)]
  · intro hemp
    subst hemp
    have hchkf : check_any_position_open ([] : List Position) = false := by
      simp [check_any_position_open]
    constructor
    · intro h
      unfold open_long_position at h
      rw [hchkf] at h
      simp only [Bool.false_eq_true, if_false] at h
      split at h
      · cases h
        rename_i hcalc
        rcases calculate_units_error_cases hcalc with h2 | h2 <;> cases h2
      · split at h
        · cases h
          rename_i hprec
          cases lookupPrecision_error hprec
        · split at h <;> cases h
    · intro h
      unfold open_short_position at h
      rw [hchkf] at h
      simp only [Bool.false_eq_true, if_false] at h
      split at h
      · cases h
        rename_i hcalc
        rcases calculate_units_error_cases hcalc with h2 | h2 <;> cases h2
      · split at h
        · cases h
          rename_i hprec
          cases lookupPrecision_error hprec
        · split at h <;> cases h

/-- Witness for C2: a single open position on a different instrument
(GBP_USD) blocks opening EUR_USD. -/
theorem open_rejected_when_any_position_open_witness :
    ([Position.mk "GBP_USD"] ≠ ([] : List Position)) ∧
    open_long_position true [Position.mk "GBP_USD"] acctA [] precsA "EUR_USD"
      (11/10) 1 (6/5) 1 = .error .positionAlreadyOpen ∧
    open_short_position true [Position.mk "GBP_USD"] acctA [] precsA "EUR_USD"
      (11/10) 1 (6/5) 1 = .error .positionAlreadyOpen := by
  have h := open_rejected_when_any_position_open true [Position.mk "GBP_USD"]
    acctA [] precsA "EUR_USD" (11/10) 1 (6/5) 1
  have hne : [Position.mk "GBP_USD"] ≠ ([] : List Position) := by simp
  exact ⟨hne, (h.1 hne).1, (h.1 hne).2⟩

/-- C7: a 6-character ticker is split at position 3 into BASE_QUOTE; a
missing or non-6-character ticker is rejected with the 400-equivalent
invalid-ticker error. -/
theorem translate_splits_six_char_ticker :
    (Server.translate none = .error .invalidTicker) ∧
    (∀ t, t.length ≠ 6 → Server.translate (some t) = .error .invalidTicker) ∧
    (∀ t r, Server.translate (some t) = .ok r →
      r = (t.toList.take 3).asString ++ "_" ++ (t.toList.drop 3).asString) ∧
    (Server.translate (some "EURUSD") = .ok "EUR_USD") := by
  refine ⟨rfl, ?_, ?_, rfl⟩
  · intro t ht
    simp only [Server.translate]
    rw [if_pos (Or.inr ht)]
  · intro t r h
    simp only [Server.translate] at h
    by_cases h6 : t = "" ∨ t.length ≠ 6
    · rw [if_pos h6] at h
      cases h
    · rw [if_neg h6] at h
      split at h
      · cases h
        rfl
      · cases h

/-- Witness for C7 at concrete tickers. -/
theorem translate_splits_six_char_ticker_witness :
    Server.translate (some "ABC") = .error .invalidTicker ∧
    Server.translate (some "EURUSD") = .ok "EUR_USD" :=
  ⟨translate_splits_six_char_ticker.2.1 "ABC" (by decide),
   translate_splits_six_char_ticker.2.2.2⟩

/-- C9: an open_long/open_short payload lacking stop_loss_price (or price or
take_profit_price) is rejected with the 400-equivalent missing-parameters
error before any broker interaction: the result does not depend on the
broker data consumed by sizing. -/
theorem missing_open_fields_rejected_before_broker
    (pd : Server.PostData) (acct acct2 : AccountState)
    (prices prices2 : List PriceEntry) (instr : String)
    (htr : Server.translate pd.ticker = .ok instr)
    (hact : pd.action = "open_long" ∨ pd.action = "open_short")
    (hmiss : pd.stop_loss_price = none ∨ pd.take_profit_price = none ∨
      pd.price = none) :
    Server.post_data_to_oanda_parameters acct prices pd =
      .error .missingOpenParams ∧
    Server.post_data_to_oanda_parameters acct prices pd =
      Server.post_data_to_oanda_parameters acct2 prices2 pd := by
  have key : ∀ (a : AccountState) (ps : List PriceEntry),
      Server.post_data_to_oanda_parameters a ps pd =
        .error .missingOpenParams := by
    intro a ps
    unfold Server.post_data_to_oanda_parameters
    rw [htr]
    simp only
    rw [if_pos ⟨hact, hmiss⟩]
  exact ⟨key acct prices, by rw [key acct prices, key acct2 prices2]⟩



/-- Witness for C9 at the concrete scenario payload. -/
theorem missing_open_fields_rejected_witness :
    Server.translate pdMissingStop.ticker = .ok "EUR_USD" ∧
    (pdMissingStop.action = "open_long" ∨ pdMissingStop.action = "open_short") ∧
    pdMissingStop.stop_loss_price = none ∧
    Server.post_data_to_oanda_parameters acctA [] pdMissingStop =
      .error .missingOpenParams :=
  ⟨rfl, Or.inl rfl, rfl,
    (missing_open_fields_rejected_before_broker pdMissingStop acctA acctA [] []
      "EUR_USD" rfl (Or.inl rfl) (Or.inl rfl)).1⟩

/-- C10: with an existing snapshot file, a precision lookup for an absent
instrument raises a lookup error and the broker is not re-queried; the cache
refetches exactly when the snapshot file is missing. -/
theorem precision_cache_refetches_only_on_missing_file
    (w : PrecisionCacheWorld) (instrument : String) :
    (w.fileExists = true →
      (get_price_precisions w).fetchedFromBroker = false ∧
      (w.fileContents.find? (fun kv => kv.fst == instrument) = none →
        get_price_precision w instrument = .error .missingKey)) ∧
    ((get_price_precisions w).fetchedFromBroker = true ↔
      w.fileExists = false) := by
  constructor
  · intro hex
    constructor
    · simp [get_price_precisions, hex]
    · intro hmiss
      simp [get_price_precision, get_price_precisions, hex, hmiss]
  · cases hfe : w.fileExists <;> simp [get_price_precisions, hfe]



/-- Witness for C10 at a concrete snapshot. -/
theorem precision_cache_witness :
    cacheWorldA.fileExists = true ∧
    cacheWorldA.fileContents.find? (fun kv => kv.fst == "USD_JPY") = none ∧
    (get_price_precisions cacheWorldA).fetchedFromBroker = false ∧
    get_price_precision cacheWorldA "USD_JPY" = .error .missingKey := by
  have h := precision_cache_refetches_only_on_missing_file cacheWorldA "USD_JPY"
  exact ⟨rfl, rfl, (h.1 rfl).1, (h.1 rfl).2 rfl⟩

theorem strToList_append (s t : String) :
    (s ++ t).toList = s.toList ++ t.toList :=
  String.data_append s t

/-- C4 counterexample: JPY_USD is a supported instrument whose quote
currency (USD) does not contain "JPY", yet its pip size is 0.01 — not the
0.0001 the claim requires — because the code tests the whole instrument
string. -/
theorem pip_value_quote_rule_counterexample :
    quote_currency_of "JPY_USD" = "USD" ∧
    strContains "USD" "JPY" = false ∧
    "JPY_USD" ∈ Server.SUPPORTED_PAIRS ∧
    determine_pip_value "JPY_USD" = 1/100 ∧
    determine_pip_value "JPY_USD" ≠ 1/10000 := by
  have h : strContains "JPY_USD" "JPY" = true := by decide
  refine ⟨by decide, by decide, by decide, ?_, ?_⟩
  · simp [determine_pip_value, h]
  · simp [determine_pip_value, h]

/-- C4 amended: the pip size is 0.01 exactly when the instrument string
contains "JPY" anywhere (base or quote) and 0.0001 otherwise; in particular
a quote currency containing JPY still yields 0.01. -/
theorem pip_value_substring_of_instrument :
    (∀ instrument, (determine_pip_value instrument = 1/100 ↔
        strContains instrument "JPY" = true) ∧
      (determine_pip_value instrument = 1/10000 ↔
        strContains instrument "JPY" = false)) ∧
    (∀ base q, strContains q "JPY" = true →
      determine_pip_value (base ++ "_" ++ q) = 1/100) := by
  constructor
  · intro instrument
    unfold determine_pip_value
    by_cases h : strContains instrument "JPY" = true
    · rw [if_pos h]
      refine ⟨by simp [h], ?_⟩
      simp [h]
    · rw [if_neg h]
      have h2 : strContains instrument "JPY" = false := by simpa using h
      refine ⟨?_, by simp [h2]⟩
      simp [h2]
  · intro base q hq
    have hsub : strContains (base ++ "_" ++ q) "JPY" = true := by
      unfold strContains at hq ⊢
      rw [decide_eq_true_eq] at hq ⊢
      rw [strToList_append]
      exact hq.trans (List.suffix_append _ _).isInfix
    simp [determine_pip_value, hsub]

/-- Witness for the amended C4 at concrete instruments. -/
theorem pip_value_substring_of_instrument_witness :
    strContains "JPY" "JPY" = true ∧
    determine_pip_value ("USD" ++ "_" ++ "JPY") = 1/100 ∧
    (determine_pip_value "EUR_USD" = 1/10000 ↔
      strContains "EUR_USD" "JPY" = false) :=
  ⟨by decide,
   pip_value_substring_of_instrument.2 "USD" "JPY" (by decide),
   (pip_value_substring_of_instrument.1 "EUR_USD").2⟩

/-- C5 counterexample: a margin rate of 0.15 yields int(1/0.15) = 6, while
the nearest integer to 1/0.15 is 7 — the leverage is truncated, not
rounded. -/
theorem leverage_round_counterexample :
    get_account_balance 1000 (3/20) (some "USD") =
      .ok { balance := 1000, leverage := 6, currency := "USD" } ∧
    round ((1:ℚ) / (3/20)) = 7 ∧ (6 : ℤ) ≠ round ((1:ℚ) / (3/20)) := by
  have h20 : (1:ℚ) / (3/20) = 20/3 := by norm_num
  have hlev : leverage_of (3/20) = 6 := by
    unfold leverage_of
    rw [h20, pyInt_of_nonneg (by norm_num), Int.floor_eq_iff]
    constructor <;> norm_num
  have hround : round ((1:ℚ) / (3/20)) = 7 := by
    rw [h20, round_eq, Int.floor_eq_iff]
    constructor <;> norm_num
  refine ⟨?_, hround, by rw [hround]; norm_num⟩
  unfold get_account_balance
  simp [hlev]

/-- C5 amended: for every account response with a positive margin rate, the
leverage returned by `get_account_balance` is int(1/marginRate) — the
truncation toward zero of the reciprocal (its floor, the rate being
positive) — not the nearest integer. -/
theorem leverage_is_truncated_reciprocal
    (b m : ℚ) (c : String) (hm : 0 < m) (hc : c ≠ "") :
    ∀ st, get_account_balance b m (some c) = .ok st →
      st.leverage = ⌊1 / m⌋ := by
  intro st h
  unfold get_account_balance at h
  simp only at h
  rw [if_neg hc] at h
  cases h
  show leverage_of m = ⌊1 / m⌋
  unfold leverage_of
  exact pyInt_of_nonneg (by positivity)

/-- Witness for the amended C5 at margin rate 1/30. -/
theorem leverage_is_truncated_reciprocal_witness :
    (0:ℚ) < 1/30 ∧ ("USD" : String) ≠ "" ∧
    (AccountState.mk 1000 (leverage_of (1/30)) "USD").leverage =
      ⌊(1:ℚ) / (1/30)⌋ :=
  ⟨by norm_num, by decide,
   leverage_is_truncated_reciprocal 1000 (1/30) "USD" (by norm_num)
     (by decide) _ rfl⟩

/-- C6: when the quote currency differs from the account currency, the
balance is converted with the mid rate of the ACCOUNTCURRENCY_QUOTECURRENCY
pair (account currency as base), and the reward/risk percentages divide by
this converted balance. -/
theorem conversion_uses_account_base_mid_rate
    (acct : AccountState) (prices : List PriceEntry) (instrument : String)
    (price s tp rp : ℚ) (e : PriceEntry)
    (hqc : quote_currency_of instrument ≠ acct.currency)
    (hfind : prices.find? (fun p =>
        p.instrument == acct.currency ++ "_" ++ quote_currency_of instrument)
      = some e)
    (htp : tp ≠ 0) :
    get_accountcurrency_exchange_rate acct.currency
      (quote_currency_of instrument) prices = .ok ((e.bid + e.ask) / 2) ∧
    converted_balance acct prices instrument =
      .ok (acct.balance * ((e.bid + e.ask) / 2)) ∧
    (∀ td, calculate_units acct prices instrument price (some s) (some tp) rp =
        .ok td →
      td.account_balance_converted = acct.balance * ((e.bid + e.ask) / 2) ∧
      td.reward = some (|tp - price| / determine_pip_value instrument *
        determine_pip_value instrument * (td.units : ℚ) /
        (acct.balance * ((e.bid + e.ask) / 2)) * 100) ∧
      td.risk = some (|price - s| / determine_pip_value instrument *
        determine_pip_value instrument * (td.units : ℚ) /
        (acct.balance * ((e.bid + e.ask) / 2)) * 100)) := by
  have hrate : get_accountcurrency_exchange_rate acct.currency
      (quote_currency_of instrument) prices = .ok ((e.bid + e.ask) / 2) := by
    simp only [get_accountcurrency_exchange_rate]
    rw [hfind]
  have hconv : converted_balance acct prices instrument =
      .ok (acct.balance * ((e.bid + e.ask) / 2)) := by
    simp only [converted_balance]
    rw [if_pos hqc, hrate]
  refine ⟨hrate, hconv, ?_⟩
  intro td htd
  by_cases hs : s = 0
  · rw [calculate_units_of_stop_falsy hconv (by simp [pyTruthy, hs])] at htd
    cases htd
  · by_cases hps : price = s
    · rw [calculate_units_zero_dist_aux (some tp) rp hconv
        (by rw [hps, sub_self, abs_zero])] at htd
      cases htd
    · rw [calculate_units_eq_of_stop (some tp) rp hconv hs hps] at htd
      simp only at htd
      split at htd
      · cases htd
      · cases htd
        have hpt : pyTruthy (some tp) = true := pyTruthy_some_iff.mpr htp
        simp [hpt]


theorem conv_run_B : converted_balance acctB pricesB "EUR_USD" = .ok 2500 := by
  simp only [converted_balance, quote_EUR_USD]
  rw [if_pos (by decide)]
  have hrate : get_accountcurrency_exchange_rate acctB.currency "USD" pricesB
      = .ok (5/2) := by
    simp only [get_accountcurrency_exchange_rate]
    have hfind : pricesB.find? (fun p =>
        p.instrument == acctB.currency ++ "_" ++ "USD") = some entryB := rfl
    rw [hfind]
    norm_num [entryB]
  rw [hrate]
  norm_num [acctB]

theorem calc_run_B :
    calculate_units acctB pricesB "EUR_USD" (11/10) (some 1) (some (6/5)) 1 =
      .ok tdB := by
  rw [calculate_units_eq_of_stop (some (6/5)) 1 conv_run_B (by norm_num)
    (by norm_num)]
  have habs : |(11:ℚ)/10 - 1| = 1/10 := by rw [abs_of_pos] <;> norm_num
  have habs2 : |(6:ℚ)/5 - 11/10| = 1/10 := by rw [abs_of_pos] <;> norm_num
  have hu : pyInt ((2500:ℚ) * (1 / 100) /
      (|(11:ℚ)/10 - 1| / determine_pip_value "EUR_USD" *
        determine_pip_value "EUR_USD")) = 250 := by
    rw [habs, pip_EUR_USD]
    rw [show (2500:ℚ) * (1 / 100) / (1/10 / (1/10000) * (1/10000)) = 250
      by norm_num]
    rw [pyInt_of_nonneg (by norm_num), Int.floor_eq_iff]
    constructor <;> norm_num
  have hu250 : pyInt (250 : ℚ) = 250 := by
    rw [pyInt_of_nonneg (by norm_num), Int.floor_eq_iff]
    constructor <;> norm_num
  have hpt : pyTruthy (some ((6:ℚ)/5)) = true := by simp [pyTruthy]
  have hne : ("USD" : String) ≠ "GBP" := by decide
  simp only [pip_EUR_USD, quote_EUR_USD, acctB, hu, habs, habs2, hpt, if_true]
  norm_num [tdB, hu250, abs_of_pos, hne]

/-- Witness for C6 at the concrete GBP-account run. -/
theorem conversion_uses_account_base_mid_rate_witness :
    quote_currency_of "EUR_USD" ≠ acctB.currency ∧
    pricesB.find? (fun p =>
      p.instrument == acctB.currency ++ "_" ++ quote_currency_of "EUR_USD")
      = some entryB ∧
    ((6:ℚ)/5 ≠ 0) ∧
    tdB.account_balance_converted = acctB.balance * ((entryB.bid + entryB.ask) / 2) ∧
    tdB.risk = some (|(11:ℚ)/10 - 1| / determine_pip_value "EUR_USD" *
      determine_pip_value "EUR_USD" * (tdB.units : ℚ) /
      (acctB.balance * ((entryB.bid + entryB.ask) / 2)) * 100) := by
  have hqc : quote_currency_of "EUR_USD" ≠ acctB.currency := by decide
  have hfind : pricesB.find? (fun p =>
      p.instrument == acctB.currency ++ "_" ++ quote_currency_of "EUR_USD")
      = some entryB := rfl
  have h := conversion_uses_account_base_mid_rate acctB pricesB "EUR_USD"
    (11/10) 1 (6/5) 1 entryB hqc hfind (by norm_num)
  exact ⟨hqc, hfind, by norm_num, (h.2.2 tdB calc_run_B).1,
    (h.2.2 tdB calc_run_B).2.2⟩

theorem fracDigits_length (m d : ℕ) : (fracDigits m d).length = d := by
  simp [fracDigits]

theorem digitChar_mod_ten_ne_dot (n : ℕ) : Nat.digitChar (n % 10) ≠ '.' := by
  have h : n % 10 < 10 := Nat.mod_lt _ (by norm_num)
  set k := n % 10 with hk
  interval_cases k <;> decide

theorem fracDigits_ne_dot {m d : ℕ} {c : Char} (h : c ∈ fracDigits m d) :
    c ≠ '.' := by
  unfold fracDigits at h
  rcases List.mem_map.mp h with ⟨i, _, hc⟩
  rw [← hc]
  exact digitChar_mod_ten_ne_dot _

theorem toList_mk (l : List Char) : (String.mk l).toList = l := rfl

/-- A string of the form `a ++ "." ++ F` with `F` free of dots has exactly
`F.length` decimal places. -/
theorem decimalPlaces_concat (a : String) (F : List Char)
    (hF : ∀ c ∈ F, c ≠ '.') :
    decimalPlaces (a ++ "." ++ String.mk F) = F.length := by
  unfold decimalPlaces
  have htl : (a ++ "." ++ String.mk F).toList = a.toList ++ ['.'] ++ F := by
    rw [strToList_append, strToList_append]
    rfl
  rw [htl]
  rw [if_pos (by simp)]
  rw [List.reverse_append, List.reverse_append]
  simp only [List.reverse_singleton, List.singleton_append]
  rw [List.takeWhile_append_of_pos]
  · simp
  · intro c hc
    have hcF : c ∈ F := List.mem_reverse.mp hc
    simpa using hF c hcF

theorem decimalPlaces_formatFixed (q : ℚ) (d : ℕ) (hd : 0 < d) :
    decimalPlaces (formatFixed q d) = d := by
  have hne : d ≠ 0 := Nat.pos_iff_ne_zero.mp hd
  have h1 : formatFixed q d =
      ((if round (q * (10:ℚ)^d) < 0 then "-" else "") ++
        Nat.repr ((round (q * (10:ℚ)^d)).natAbs / 10 ^ d)) ++ "." ++
        String.mk (fracDigits ((round (q * (10:ℚ)^d)).natAbs % 10 ^ d) d) := by
    simp only [formatFixed]
    rw [if_neg hne]
  rw [h1, decimalPlaces_concat _ _ (fun c hc => fracDigits_ne_dot hc),
    fracDigits_length]

/-- C8: with the debug flag set, open and close operations send nothing over
the network, return the debug sentinel, and record the constructed payload
for audit, whose stop-loss/take-profit prices are formatted to exactly the
cached precision and whose units field carries the caller-applied sign. -/
theorem debug_mode_no_network_call
    (acct : AccountState) (prices : List PriceEntry)
    (precisions : List (String × ℕ)) (instrument : String)
    (price sl tp rp : ℚ) (td : TradeDetails) (d : ℕ)
    (hcalc : calculate_units acct prices instrument price (some sl) (some tp)
      rp = .ok td)
    (hprec : lookupPrecision precisions instrument = .ok d)
    (hd : 0 < d) :
    open_long_position DEBUG_MODE [] acct prices precisions instrument price
        sl tp rp =
      .ok { result := .debugSentinel,
            logged := [{ order_type := "MARKET", positionFill := "DEFAULT",
                         instrument := instrument, units := toString td.units,
                         stopLossOnFill := formatFixed sl d,
                         takeProfitOnFill := formatFixed tp d }],
            networkSent := [] } ∧
    open_short_position DEBUG_MODE [] acct prices precisions instrument price
        sl tp rp =
      .ok { result := .debugSentinel,
            logged := [{ order_type := "MARKET", positionFill := "DEFAULT",
                         instrument := instrument,
                         units := toString (-td.units),
                         stopLossOnFill := formatFixed sl d,
                         takeProfitOnFill := formatFixed tp d }],
            networkSent := [] } ∧
    close_long_position DEBUG_MODE =
      { result := .debugSentinel, logged := [("longUnits", "ALL")],
        networkSent := [] } ∧
    close_short_position DEBUG_MODE =
      { result := .debugSentinel, logged := [("shortUnits", "ALL")],
        networkSent := [] } ∧
    decimalPlaces (formatFixed sl d) = d ∧
    decimalPlaces (formatFixed tp d) = d := by
  have hchk : check_any_position_open ([] : List Position) = false := by
    simp [check_any_position_open]
  refine ⟨?_, ?_, rfl, rfl, decimalPlaces_formatFixed sl d hd,
    decimalPlaces_formatFixed tp d hd⟩
  · unfold open_long_position
    rw [hchk]
    simp only [Bool.false_eq_true, if_false]
    rw [hcalc, hprec]
    simp [DEBUG_MODE]
  · unfold open_short_position
    rw [hchk]
    simp only [Bool.false_eq_true, if_false]
    rw [hcalc, hprec]
    simp [DEBUG_MODE]

/-- Witness for C8 at the concrete EUR_USD run with precision 5. -/
theorem debug_mode_no_network_call_witness :
    calculate_units acctA [] "EUR_USD" (11/10) (some 1) (some (6/5)) 1 =
      .ok tdA ∧
    lookupPrecision precsA "EUR_USD" = .ok 5 ∧
    open_short_position DEBUG_MODE [] acctA [] precsA "EUR_USD" (11/10) 1
      (6/5) 1 = .ok openShortOutA ∧
    decimalPlaces (formatFixed 1 5) = 5 := by
  have h := debug_mode_no_network_call acctA [] precsA "EUR_USD" (11/10) 1
    (6/5) 1 tdA 5 calc_run_A rfl (by norm_num)
  refine ⟨calc_run_A, rfl, ?_, h.2.2.2.2.1⟩
  rw [h.2.1]
  simp [openShortOutA, tdA]
